import Mathlib

/-!
# Spamklr waitlist backend — verification of the admission-control core

A shallow embedding of the admission-control core of the Spamklr marketing-site
backend (`business/business.js`, `persistence/persistence.js`, and the
layered-app variant under `src/`), together with theorems settling the frozen
claims about it.

JS strings are modelled as `List Char`; timestamps as `Int` milliseconds since
the epoch.  Each JS function is translated into an executable Lean definition;
the MongoDB store is a pair of lists, with the schema validators and the unique
index on waitlist email modelled explicitly.
-/

namespace Spamklr

/-- A JS string, modelled as its list of characters. -/
abbrev Str := List Char

/-- Apply a finite character substitution: the value paired with the first
matching key, or the character unchanged when no key matches. -/
def applyCharMap : List (Char × Char) → Char → Char
  | [], c => c
  | (a, b) :: rest, c => if c = a then b else applyCharMap rest c

/-- The ASCII upper-to-lower case table. -/
def upperLowerTable : List (Char × Char) :=
  [('A', 'a'), ('B', 'b'), ('C', 'c'), ('D', 'd'), ('E', 'e'), ('F', 'f'),
   ('G', 'g'), ('H', 'h'), ('I', 'i'), ('J', 'j'), ('K', 'k'), ('L', 'l'),
   ('M', 'm'), ('N', 'n'), ('O', 'o'), ('P', 'p'), ('Q', 'q'), ('R', 'r'),
   ('S', 's'), ('T', 't'), ('U', 'u'), ('V', 'v'), ('W', 'w'), ('X', 'x'),
   ('Y', 'y'), ('Z', 'z')]

/-- ASCII case-folding of one character, as performed by JS
`String.prototype.toLowerCase` on ASCII input (the only input class the
admission pipelines care about: names and emails). -/
def jsCharToLower (c : Char) : Char := applyCharMap upperLowerTable c

/-- JS `s.toLowerCase()`. -/
def jsToLower (s : Str) : Str := s.map jsCharToLower

/-- JS `s.trim()`: strip leading and trailing whitespace. -/
def jsTrim (s : Str) : Str :=
  ((s.dropWhile Char.isWhitespace).reverse.dropWhile Char.isWhitespace).reverse

/-- A character matched by the regex class `[^\s@]`. -/
def isAtomChar (c : Char) : Bool := !c.isWhitespace && c != '@'

/-- Split a string at its first `'@'`, returning the (possibly empty) parts
before and after it; `none` when the string has no `'@'`. -/
def splitAtFirstAt : Str → Option (Str × Str)
  | [] => none
  | c :: rest =>
    if c = '@' then some ([], rest)
    else
      match splitAtFirstAt rest with
      | some (p, q) => some (c :: p, q)
      | none => none

/-- The test of the email regex `/^[^\s@]+@[^\s@]+\.[^\s@]+$/` shared by
`business.js` (lines 33, 92) and the schemas: a nonempty run of non-space,
non-`@` characters, one `'@'`, and a domain that itself contains a `'.'` with
at least one character on each side.  Because `[^\s@]` excludes `'@'`, the
pattern's `'@'` necessarily matches the first `'@'` of the subject, and the
remainder must be `'@'`-free; the `'.'` required by the pattern may sit at any
non-extremal position of the domain (the class `[^\s@]` also matches `'.'`). -/
def emailRegexTest (s : Str) : Bool :=
  match splitAtFirstAt s with
  | some (p, q) =>
    !p.isEmpty && p.all isAtomChar && q.all isAtomChar &&
      ((q.drop 1).dropLast.any (fun c => c == '.'))
  | none => false

/-- JS email normalization `email.toLowerCase().trim()` as used by
`business.js` (line 59) and `persistence.js` `findByEmail` (line 154). -/
def normalizeEmail (e : Str) : Str := jsTrim (jsToLower e)

/-! ### Facts about normalization and the email regex

Lowercasing and trimming a string the regex accepts yields a string the regex
still accepts: the regex forbids whitespace outright (so `trim` is the
identity on accepted strings) and ASCII case-folding never creates nor
destroys an `'@'`, a `'.'`, or whitespace. -/

theorem applyCharMap_eq_or_mem (t : List (Char × Char)) (c : Char) :
    applyCharMap t c = c ∨ ∃ p ∈ t, applyCharMap t c = p.2 := by
  induction t with
  | nil => left; rfl
  | cons hd tl ih =>
    obtain ⟨a, b⟩ := hd
    simp only [applyCharMap]
    by_cases h : c = a
    · right
      exact ⟨(a, b), List.mem_cons_self _ _, by rw [if_pos h]⟩
    · rw [if_neg h]
      rcases ih with h1 | ⟨p, hp, h2⟩
      · left; exact h1
      · right; exact ⟨p, List.mem_cons_of_mem _ hp, h2⟩

theorem jsCharToLower_not_ws {c : Char} (h : c.isWhitespace = false) :
    (jsCharToLower c).isWhitespace = false := by
  rcases applyCharMap_eq_or_mem upperLowerTable c with h1 | ⟨p, hp, h2⟩
  · rw [jsCharToLower, h1]; exact h
  · rw [jsCharToLower, h2]
    have hall : ∀ p ∈ upperLowerTable, p.2.isWhitespace = false := by decide
    exact hall p hp

theorem jsCharToLower_at_iff (c : Char) : jsCharToLower c = '@' ↔ c = '@' := by
  constructor
  · intro h
    rcases applyCharMap_eq_or_mem upperLowerTable c with h1 | ⟨p, hp, h2⟩
    · rw [jsCharToLower, h1] at h; exact h
    · rw [jsCharToLower, h2] at h
      have hall : ∀ p ∈ upperLowerTable, p.2 ≠ '@' := by decide
      exact absurd h (hall p hp)
  · intro h
    subst h
    decide

theorem jsCharToLower_dot : jsCharToLower '.' = '.' := by decide

theorem isAtomChar_jsCharToLower {c : Char} (h : isAtomChar c = true) :
    isAtomChar (jsCharToLower c) = true := by
  simp only [isAtomChar, Bool.and_eq_true, Bool.not_eq_true', bne_iff_ne, ne_eq] at h ⊢
  exact ⟨jsCharToLower_not_ws h.1, fun hc => h.2 ((jsCharToLower_at_iff c).mp hc)⟩

theorem dropWhile_eq_self_of_not {p : Char → Bool} :
    ∀ l : Str, (∀ c ∈ l, p c = false) → l.dropWhile p = l := by
  intro l h
  cases l with
  | nil => rfl
  | cons c rest =>
    rw [List.dropWhile_cons_of_neg]
    simp [h c (List.mem_cons_self c rest)]

theorem jsTrim_eq_self {l : Str} (h : ∀ c ∈ l, c.isWhitespace = false) :
    jsTrim l = l := by
  unfold jsTrim
  rw [dropWhile_eq_self_of_not l h, dropWhile_eq_self_of_not l.reverse
    (fun c hc => h c (List.mem_reverse.mp hc)), List.reverse_reverse]

theorem splitAtFirstAt_map {f : Char → Char} (hf : ∀ c, f c = '@' ↔ c = '@') :
    ∀ l : Str, splitAtFirstAt (l.map f) =
      (splitAtFirstAt l).map (fun pq => (pq.1.map f, pq.2.map f)) := by
  intro l
  induction l with
  | nil => rfl
  | cons c rest ih =>
    simp only [List.map_cons, splitAtFirstAt]
    by_cases h : c = '@'
    · rw [if_pos ((hf c).mpr h), if_pos h]
      rfl
    · rw [if_neg (fun hc => h ((hf c).mp hc)), if_neg h, ih]
      cases hs : splitAtFirstAt rest with
      | none => rfl
      | some pq => rfl

theorem splitAtFirstAt_eq :
    ∀ {l p q : Str}, splitAtFirstAt l = some (p, q) → l = p ++ '@' :: q := by
  intro l
  induction l with
  | nil => intro p q h; simp [splitAtFirstAt] at h
  | cons c rest ih =>
    intro p q h
    simp only [splitAtFirstAt] at h
    by_cases hc : c = '@'
    · rw [if_pos hc] at h
      simp only [Option.some.injEq, Prod.mk.injEq] at h
      subst hc
      rw [← h.1, ← h.2]
      rfl
    · rw [if_neg hc] at h
      cases hs : splitAtFirstAt rest with
      | none => rw [hs] at h; exact absurd h (by simp)
      | some pq =>
        rw [hs] at h
        obtain ⟨p', q'⟩ := pq
        simp only [Option.some.injEq, Prod.mk.injEq] at h
        have hrest := ih hs
        rw [← h.1, ← h.2, hrest]
        rfl

theorem emailRegexTest_chars_not_ws {e : Str} (h : emailRegexTest e = true) :
    ∀ c ∈ e, c.isWhitespace = false := by
  unfold emailRegexTest at h
  cases hs : splitAtFirstAt e with
  | none => rw [hs] at h; exact absurd h (by simp)
  | some pq =>
    obtain ⟨p, q⟩ := pq
    rw [hs] at h
    simp only [Bool.and_eq_true, List.all_eq_true] at h
    obtain ⟨⟨⟨-, hp⟩, hq⟩, -⟩ := h
    have he := splitAtFirstAt_eq hs
    intro c hc
    rw [he] at hc
    rcases List.mem_append.mp hc with hcp | hcq
    · have := hp c hcp
      simp only [isAtomChar, Bool.and_eq_true, Bool.not_eq_true'] at this
      exact this.1
    · rcases List.mem_cons.mp hcq with rfl | hcq'
      · decide
      · have := hq c hcq'
        simp only [isAtomChar, Bool.and_eq_true, Bool.not_eq_true'] at this
        exact this.1

theorem emailRegexTest_jsToLower {e : Str} (h : emailRegexTest e = true) :
    emailRegexTest (jsToLower e) = true := by
  unfold emailRegexTest at h ⊢
  rw [jsToLower, splitAtFirstAt_map jsCharToLower_at_iff]
  cases hs : splitAtFirstAt e with
  | none => rw [hs] at h; exact absurd h (by simp)
  | some pq =>
    obtain ⟨p, q⟩ := pq
    rw [hs] at h
    simp only [Option.map_some', Bool.and_eq_true, List.all_eq_true,
      List.any_eq_true] at h ⊢
    obtain ⟨⟨⟨hne, hp⟩, hq⟩, d, hd, hdot⟩ := h
    refine ⟨⟨⟨by simpa using hne, ?_⟩, ?_⟩, ?_⟩
    · intro c hc
      obtain ⟨c₀, hc₀, rfl⟩ := List.mem_map.mp hc
      exact isAtomChar_jsCharToLower (hp c₀ hc₀)
    · intro c hc
      obtain ⟨c₀, hc₀, rfl⟩ := List.mem_map.mp hc
      exact isAtomChar_jsCharToLower (hq c₀ hc₀)
    · refine ⟨jsCharToLower d, ?_, ?_⟩
      · rw [← List.map_drop, ← List.map_dropLast]
        exact List.mem_map.mpr ⟨d, hd, rfl⟩
      · have hd' : d = '.' := by simpa using hdot
        subst hd'
        simp [jsCharToLower_dot]

theorem jsToLower_not_ws {e : Str} (h : ∀ c ∈ e, c.isWhitespace = false) :
    ∀ c ∈ jsToLower e, c.isWhitespace = false := by
  intro c hc
  obtain ⟨c₀, hc₀, rfl⟩ := List.mem_map.mp hc
  exact jsCharToLower_not_ws (h c₀ hc₀)

theorem emailRegexTest_normalize {e : Str} (h : emailRegexTest e = true) :
    emailRegexTest (normalizeEmail e) = true := by
  rw [normalizeEmail, jsTrim_eq_self (jsToLower_not_ws (emailRegexTest_chars_not_ws h))]
  exact emailRegexTest_jsToLower h

theorem emailRegexTest_ne_nil {e : Str} (h : emailRegexTest e = true) : e ≠ [] := by
  intro he
  subst he
  exact absurd h (by decide)

/-! ## Data model (persistence/persistence.js) -/

/-- 24 hours in milliseconds, the rolling window used by `countRecentByIP`,
`getStats` and `countContactsByIP`. -/
def dayMs : Int := 24 * 60 * 60 * 1000

/-- A stored waitlist document (`WaitlistSchema`, persistence.js lines 6-36).
`joinedAt` defaults to the insertion instant. -/
structure WaitlistRecord where
  name : Str
  email : Str
  ipAddress : Str
  userAgent : Str
  joinedAt : Int
deriving DecidableEq, Repr

/-- A stored contact document (`ContactSchema`, persistence.js lines 43-86).
`status` defaults to `"new"`. -/
structure ContactRecord where
  name : Str
  email : Str
  subject : Str
  message : Str
  ipAddress : Str
  userAgent : Str
  status : String
  createdAt : Int
deriving DecidableEq, Repr

/-- The MongoDB datastore: the `Waitlist` and `Contact` collections. -/
structure DB where
  waitlist : List WaitlistRecord
  contacts : List ContactRecord
deriving DecidableEq, Repr

/-- An error surfaced by the storage layer: either the driver's duplicate-key
error (`MongoServerError`, code 11000, raised by the unique index on waitlist
`email`) or a mongoose schema-validation error. -/
structure StoreErr where
  name : String
  message : String
  code : Option Int
deriving DecidableEq, Repr

/-- The duplicate-key error raised by the unique index on `email`. -/
def duplicateKeyErr : StoreErr :=
  { name := "MongoServerError", message := "E11000 duplicate key error", code := some 11000 }

/-- A mongoose `ValidationError` (no numeric code). -/
def validationErr (message : String) : StoreErr :=
  { name := "ValidationError", message := message, code := none }

/-- Mongoose validation of a would-be waitlist document against
`WaitlistSchema` (persistence.js lines 6-36): `name` required with trimmed
length in [2, 50]; `email` required and matching the email regex;
`ipAddress` and `userAgent` required (for a mongoose `String` path, the
empty string fails `required`).  The schema's `trim`/`lowercase` setters are
not re-applied here: they are identities on the already-trimmed,
already-lowercased values the only caller (`addToWaitlist`) supplies. -/
def waitlistSchemaError (r : WaitlistRecord) : Option StoreErr :=
  if r.name.length < 2 then some (validationErr "Name must be at least 2 characters")
  else if 50 < r.name.length then some (validationErr "Name must be less than 50 characters")
  else if r.email.isEmpty then some (validationErr "Email is required")
  else if emailRegexTest r.email = false then some (validationErr "Please enter a valid email")
  else if r.ipAddress.isEmpty then some (validationErr "ipAddress is required")
  else if r.userAgent.isEmpty then some (validationErr "userAgent is required")
  else none

/-- `insertWaitlistEntry` (persistence.js lines 123-131) followed by
`entry.save()`: mongoose validates the document against the schema, then the
store's unique index on `email` either rejects the insert with the
duplicate-key error or appends the document durably. -/
def insertWaitlistEntry (db : DB) (now : Int) (name email ipAddress userAgent : Str) :
    Except StoreErr (DB × WaitlistRecord) :=
  let r : WaitlistRecord :=
    { name := name, email := email, ipAddress := ipAddress, userAgent := userAgent,
      joinedAt := now }
  match waitlistSchemaError r with
  | some e => .error e
  | none =>
    if db.waitlist.any (fun x => x.email == r.email) then .error duplicateKeyErr
    else .ok ({ db with waitlist := db.waitlist ++ [r] }, r)

/-- `countWaitlist` (persistence.js lines 136-138): total number of waitlist
documents. -/
def countWaitlist (db : DB) : Nat := db.waitlist.length

/-- `countRecentByIP` (persistence.js lines 143-148) at its default window:
waitlist documents from `ipAddress` with `joinedAt ≥ now - 24h`. -/
def countRecentByIP (db : DB) (now : Int) (ipAddress : Str) : Nat :=
  (db.waitlist.filter (fun r => r.ipAddress == ipAddress && decide (now - dayMs ≤ r.joinedAt))).length

/-- `findByEmail` (persistence.js lines 153-155): first waitlist document whose
stored email equals the lowercased, trimmed query email. -/
def findByEmail (db : DB) (email : Str) : Option WaitlistRecord :=
  db.waitlist.find? (fun r => r.email == normalizeEmail email)

/-- `getStats` (persistence.js lines 160-166): total count and count of
documents with `joinedAt` within the trailing 24-hour window. -/
def getStats (db : DB) (now : Int) : Nat × Nat :=
  (db.waitlist.length,
   (db.waitlist.filter (fun r => decide (now - dayMs ≤ r.joinedAt))).length)

/-- Mongoose validation of a would-be contact document against `ContactSchema`
(persistence.js lines 43-86): `name` trimmed length in [2, 50]; `email`
required and matching the email regex; `subject` required with length ≤ 100;
`message` length in [10, 1000]; `ipAddress`, `userAgent` required.  As for
the waitlist schema, the `trim`/`lowercase` setters are not re-applied: the
only caller pre-normalizes every field it passes. -/
def contactSchemaError (r : ContactRecord) : Option StoreErr :=
  if r.name.length < 2 then some (validationErr "Name must be at least 2 characters")
  else if 50 < r.name.length then some (validationErr "Name must be less than 50 characters")
  else if r.email.isEmpty then some (validationErr "Email is required")
  else if emailRegexTest r.email = false then some (validationErr "Please enter a valid email")
  else if r.subject.isEmpty then some (validationErr "Subject is required")
  else if 100 < r.subject.length then some (validationErr "Subject must be less than 100 characters")
  else if r.message.length < 10 then some (validationErr "Message must be at least 10 characters")
  else if 1000 < r.message.length then some (validationErr "Message must be less than 1000 characters")
  else if r.ipAddress.isEmpty then some (validationErr "ipAddress is required")
  else if r.userAgent.isEmpty then some (validationErr "userAgent is required")
  else none

/-- `insertContactEntry` (persistence.js lines 171-181): validate against the
contact schema and append.  The contact collection has no uniqueness
constraint on `email`. -/
def insertContactEntry (db : DB) (now : Int) (name email subject message ipAddress userAgent : Str) :
    Except StoreErr (DB × ContactRecord) :=
  let r : ContactRecord :=
    { name := name, email := email, subject := subject, message := message,
      ipAddress := ipAddress, userAgent := userAgent, status := "new", createdAt := now }
  match contactSchemaError r with
  | some e => .error e
  | none => .ok ({ db with contacts := db.contacts ++ [r] }, r)

/-- `countContactsByIP` (persistence.js lines 186-191) at its default window:
contact documents from `ipAddress` with `createdAt ≥ now - 24h`. -/
def countContactsByIP (db : DB) (now : Int) (ipAddress : Str) : Nat :=
  (db.contacts.filter (fun r => r.ipAddress == ipAddress && decide (now - dayMs ≤ r.createdAt))).length

/-! ## Business layer (business/business.js) -/

/-- The `code` discriminants of `BusinessError` raised by the two admission
pipelines (business.js lines 31, 34, 40, 46, 53, 67, 90, 93, 96, 99, 106). -/
inductive BusinessCode
  | INVALID_NAME
  | INVALID_EMAIL
  | WAITLIST_FULL
  | DUPLICATE_EMAIL
  | IP_RATE_LIMIT
  | INVALID_SUBJECT
  | INVALID_MESSAGE
deriving DecidableEq, Repr

/-- What an admission call can throw: a typed `BusinessError` or a raw storage
error propagated unchanged. -/
inductive Failure
  | business (code : BusinessCode)
  | store (err : StoreErr)
deriving DecidableEq, Repr

/-- The three environment-derived limits, resolved as the business layer
resolves them (`parseInt(…) || default`, business.js lines 37, 50, 103). -/
structure Config where
  maxWaitlistEntries : Int := 10000
  maxSignupsPerIp24h : Int := 3
  maxContactsPerIp24h : Int := 5
deriving DecidableEq, Repr

/-- JS `parseInt(envVar, 10) || default`: the default applies when the
variable is unset or non-numeric (`parseInt` gives `NaN`) and also when it
parses to `0`, since `0` is falsy. -/
def jsParseIntOrDefault (parsed : Option Int) (default : Int) : Int :=
  match parsed with
  | none => default
  | some 0 => default
  | some n => n

/-- All defaults in force (no environment overrides). -/
def defaultConfig : Config := {}

/-- The string `'unknown'` substituted for an absent `ipAddress`/`userAgent`
by the destructuring defaults (business.js lines 29, 88). -/
def unknownStr : Str := ['u', 'n', 'k', 'n', 'o', 'w', 'n']

/-- A waitlist admission request.  `ipAddress`/`userAgent` are `none` when the
caller's object lacks the property (the JS parameter default then fires). -/
structure WaitlistRequest where
  name : Str
  email : Str
  ipAddress : Option Str := none
  userAgent : Option Str := none
deriving DecidableEq, Repr

/-- The `catch` handler of `addToWaitlist` (business.js lines 64-70): a
storage error whose `code` is `11000` (equivalently, a `MongoServerError`
with code `11000`) is reinterpreted as the `DUPLICATE_EMAIL` business error;
any other error is rethrown unchanged. -/
def translateInsertError (err : StoreErr) : Failure :=
  if err.code = some 11000 ∨ (err.name = "MongoServerError" ∧ err.code = some 11000) then
    .business .DUPLICATE_EMAIL
  else .store err

/-- `addToWaitlist` (business.js lines 29-71), with the store state at the
pre-insert checks (`dbCheck`) distinguished from the store state the insert
runs against (`dbInsert`): each `await` is a separate round-trip, so a
concurrent writer may commit between the duplicate-email pre-check and the
insert.  The sequential call is `addToWaitlist`, where the two coincide.
Returns the resulting store state and either the created entry with its
position (`currentCount + 1`, the count observed before the insert) or the
failure thrown. -/
def addToWaitlistRace (cfg : Config) (dbCheck dbInsert : DB) (now : Int)
    (req : WaitlistRequest) : DB × Except Failure (WaitlistRecord × Nat) :=
  let ipAddress := req.ipAddress.getD unknownStr
  let userAgent := req.userAgent.getD unknownStr
  if (jsTrim req.name).length < 2 then
    (dbInsert, .error (.business .INVALID_NAME))
  else if emailRegexTest req.email = false then
    (dbInsert, .error (.business .INVALID_EMAIL))
  else
    let currentCount := countWaitlist dbCheck
    if (currentCount : Int) ≥ cfg.maxWaitlistEntries then
      (dbInsert, .error (.business .WAITLIST_FULL))
    else if (findByEmail dbCheck req.email).isSome = true then
      (dbInsert, .error (.business .DUPLICATE_EMAIL))
    else if (countRecentByIP dbCheck now ipAddress : Int) ≥ cfg.maxSignupsPerIp24h then
      (dbInsert, .error (.business .IP_RATE_LIMIT))
    else
      match insertWaitlistEntry dbInsert now (jsTrim req.name) (normalizeEmail req.email)
          ipAddress userAgent with
      | .ok (db', entry) => (db', .ok (entry, currentCount + 1))
      | .error e => (dbInsert, .error (translateInsertError e))

/-- `addToWaitlist` against a single, uninterleaved store state. -/
def addToWaitlist (cfg : Config) (db : DB) (now : Int) (req : WaitlistRequest) :
    DB × Except Failure (WaitlistRecord × Nat) :=
  addToWaitlistRace cfg db db now req

/-- A contact-form submission request. -/
structure ContactRequest where
  name : Str
  email : Str
  subject : Str
  message : Str
  ipAddress : Option Str := none
  userAgent : Option Str := none
deriving DecidableEq, Repr

/-- `addContactSubmission` (business.js lines 88-122).  Its `catch` block
rethrows every insert error unchanged. -/
def addContactSubmission (cfg : Config) (db : DB) (now : Int) (req : ContactRequest) :
    DB × Except Failure ContactRecord :=
  let ipAddress := req.ipAddress.getD unknownStr
  let userAgent := req.userAgent.getD unknownStr
  if (jsTrim req.name).length < 2 then
    (db, .error (.business .INVALID_NAME))
  else if emailRegexTest req.email = false then
    (db, .error (.business .INVALID_EMAIL))
  else if (jsTrim req.subject).length < 3 then
    (db, .error (.business .INVALID_SUBJECT))
  else if (jsTrim req.message).length < 10 then
    (db, .error (.business .INVALID_MESSAGE))
  else if (countContactsByIP db now ipAddress : Int) ≥ cfg.maxContactsPerIp24h then
    (db, .error (.business .IP_RATE_LIMIT))
  else
    match insertContactEntry db now (jsTrim req.name) (normalizeEmail req.email)
        (jsTrim req.subject) (jsTrim req.message) ipAddress userAgent with
    | .ok (db', entry) => (db', .ok entry)
    | .error e => (db, .error (.store e))

/-- A value of one of the fields of a stats response object: a number, or the
ISO-8601 rendering of the instant `t` (`new Date(t).toISOString()`). -/
inductive StatVal
  | num (n : Int)
  | isoTime (t : Int)
deriving DecidableEq, Repr

/-- `getWaitlistStats` (business.js lines 73-81), returned as the literal
key/value object the function builds: `totalSignups` and `recentSignups24h`
from `getStats`, `capacity` from the environment, `lastUpdated` the call
instant.  (No other key is put on the object.) -/
def getWaitlistStats (cfg : Config) (db : DB) (now : Int) : List (String × StatVal) :=
  let raw := getStats db now
  [("totalSignups", .num raw.1),
   ("recentSignups24h", .num raw.2),
   ("capacity", .num cfg.maxWaitlistEntries),
   ("lastUpdated", .isoTime now)]

/-! ## Layered-app stats variant (src/src) -/

/-- A document of the layered app's `Waitlist` model (unnamed Waitlist-model
file), restricted to the fields its stats aggregation reads. -/
structure SvcWaitlistDoc where
  status : String
  joinedAt : Int
deriving DecidableEq, Repr

/-- The result of the model's `getWaitlistStats` aggregation. -/
structure SvcStats where
  total : Nat
  pending : Nat
  confirmed : Nat
  recent24h : Nat
deriving DecidableEq, Repr

/-- The `Waitlist.getWaitlistStats` static (layered-app Waitlist model):
one `$group` pass counting all documents, the `pending` ones, the
`confirmed` ones, and those with `joinedAt` in the trailing 24-hour window.
(On an empty collection the aggregation returns no row and the static
substitutes all-zero counts, which coincides with the formulas below.) -/
def svcAggregateStats (docs : List SvcWaitlistDoc) (now : Int) : SvcStats :=
  { total := docs.length,
    pending := (docs.filter (fun d => d.status == "pending")).length,
    confirmed := (docs.filter (fun d => d.status == "confirmed")).length,
    recent24h := (docs.filter (fun d => decide (now - dayMs ≤ d.joinedAt))).length }

/-- `WaitlistService.getWaitlistStats` (src/src/services/waitlistService.js
lines 65-82): the aggregation counts plus `capacity`, `percentageFull =
Math.round((total / maxWaitlistEntries) * 100)` and `lastUpdated`. -/
def svcGetWaitlistStats (maxWaitlistEntries : Int) (docs : List SvcWaitlistDoc) (now : Int) :
    List (String × StatVal) :=
  let stats := svcAggregateStats docs now
  [("totalSignups", .num stats.total),
   ("pendingSignups", .num stats.pending),
   ("confirmedSignups", .num stats.confirmed),
   ("recentSignups24h", .num stats.recent24h),
   ("capacity", .num maxWaitlistEntries),
   ("percentageFull", .num (round ((stats.total : ℚ) / (maxWaitlistEntries : ℚ) * 100))),
   ("lastUpdated", .isoTime now)]

/-! ## Helper lemmas on the pipelines -/

/-- The document literal `addToWaitlist` hands to `insertWaitlistEntry`
(business.js lines 57-62): trimmed name, lowercased-and-trimmed email, the
defaulted `ipAddress`/`userAgent`, creation instant `now`. -/
def mkWaitlistEntry (now : Int) (req : WaitlistRequest) : WaitlistRecord :=
  { name := jsTrim req.name, email := normalizeEmail req.email,
    ipAddress := req.ipAddress.getD unknownStr, userAgent := req.userAgent.getD unknownStr,
    joinedAt := now }

/-- The document literal `addContactSubmission` hands to `insertContactEntry`
(business.js lines 110-117). -/
def mkContactEntry (now : Int) (req : ContactRequest) : ContactRecord :=
  { name := jsTrim req.name, email := normalizeEmail req.email,
    subject := jsTrim req.subject, message := jsTrim req.message,
    ipAddress := req.ipAddress.getD unknownStr, userAgent := req.userAgent.getD unknownStr,
    status := "new", createdAt := now }

theorem findByEmail_none_iff (db : DB) (e : Str) :
    findByEmail db e = none ↔ ∀ x ∈ db.waitlist, x.email ≠ normalizeEmail e := by
  rw [findByEmail, List.find?_eq_none]
  constructor
  · intro h x hx
    simpa using h x hx
  · intro h x hx
    simpa using h x hx

theorem addToWaitlistRace_invalid_name (cfg : Config) (dbCheck dbInsert : DB) (now : Int)
    (req : WaitlistRequest) (h : (jsTrim req.name).length < 2) :
    addToWaitlistRace cfg dbCheck dbInsert now req =
      (dbInsert, .error (.business .INVALID_NAME)) := by
  simp only [addToWaitlistRace]
  rw [if_pos h]

theorem addToWaitlistRace_invalid_email (cfg : Config) (dbCheck dbInsert : DB) (now : Int)
    (req : WaitlistRequest) (hn : ¬((jsTrim req.name).length < 2))
    (he : emailRegexTest req.email = false) :
    addToWaitlistRace cfg dbCheck dbInsert now req =
      (dbInsert, .error (.business .INVALID_EMAIL)) := by
  simp only [addToWaitlistRace]
  rw [if_neg hn, if_pos he]

theorem addToWaitlistRace_full (cfg : Config) (dbCheck dbInsert : DB) (now : Int)
    (req : WaitlistRequest) (hn : ¬((jsTrim req.name).length < 2))
    (he : emailRegexTest req.email = true)
    (hcap : (countWaitlist dbCheck : Int) ≥ cfg.maxWaitlistEntries) :
    addToWaitlistRace cfg dbCheck dbInsert now req =
      (dbInsert, .error (.business .WAITLIST_FULL)) := by
  simp only [addToWaitlistRace]
  rw [if_neg hn, if_neg (by simp [he]), if_pos hcap]

theorem addToWaitlistRace_dup_precheck (cfg : Config) (dbCheck dbInsert : DB) (now : Int)
    (req : WaitlistRequest) (hn : ¬((jsTrim req.name).length < 2))
    (he : emailRegexTest req.email = true)
    (hcap : ¬((countWaitlist dbCheck : Int) ≥ cfg.maxWaitlistEntries))
    (hdup : (findByEmail dbCheck req.email).isSome = true) :
    addToWaitlistRace cfg dbCheck dbInsert now req =
      (dbInsert, .error (.business .DUPLICATE_EMAIL)) := by
  simp only [addToWaitlistRace]
  rw [if_neg hn, if_neg (by simp [he]), if_neg hcap, if_pos hdup]

theorem addToWaitlistRace_ip_limited (cfg : Config) (dbCheck dbInsert : DB) (now : Int)
    (req : WaitlistRequest) (hn : ¬((jsTrim req.name).length < 2))
    (he : emailRegexTest req.email = true)
    (hcap : ¬((countWaitlist dbCheck : Int) ≥ cfg.maxWaitlistEntries))
    (hdup : findByEmail dbCheck req.email = none)
    (hip : (countRecentByIP dbCheck now (req.ipAddress.getD unknownStr) : Int) ≥
      cfg.maxSignupsPerIp24h) :
    addToWaitlistRace cfg dbCheck dbInsert now req =
      (dbInsert, .error (.business .IP_RATE_LIMIT)) := by
  simp only [addToWaitlistRace]
  rw [if_neg hn, if_neg (by simp [he]), if_neg hcap, if_neg (by simp [hdup]), if_pos hip]

theorem addToWaitlistRace_insert (cfg : Config) (dbCheck dbInsert : DB) (now : Int)
    (req : WaitlistRequest) (hn : ¬((jsTrim req.name).length < 2))
    (he : emailRegexTest req.email = true)
    (hcap : ¬((countWaitlist dbCheck : Int) ≥ cfg.maxWaitlistEntries))
    (hdup : findByEmail dbCheck req.email = none)
    (hip : ¬((countRecentByIP dbCheck now (req.ipAddress.getD unknownStr) : Int) ≥
      cfg.maxSignupsPerIp24h)) :
    addToWaitlistRace cfg dbCheck dbInsert now req =
      match insertWaitlistEntry dbInsert now (jsTrim req.name) (normalizeEmail req.email)
          (req.ipAddress.getD unknownStr) (req.userAgent.getD unknownStr) with
      | .ok (db', entry) => (db', .ok (entry, countWaitlist dbCheck + 1))
      | .error e => (dbInsert, .error (translateInsertError e)) := by
  simp only [addToWaitlistRace]
  rw [if_neg hn, if_neg (by simp [he]), if_neg hcap, if_neg (by simp [hdup]), if_neg hip]

theorem insertWaitlistEntry_ok (db : DB) (now : Int) (name email ip ua : Str)
    (hn2 : 2 ≤ name.length) (hn50 : name.length ≤ 50)
    (he : emailRegexTest email = true) (hip : ip ≠ []) (hua : ua ≠ [])
    (hdup : ∀ x ∈ db.waitlist, x.email ≠ email) :
    insertWaitlistEntry db now name email ip ua =
      .ok ({ db with waitlist := db.waitlist ++
              [⟨name, email, ip, ua, now⟩] }, ⟨name, email, ip, ua, now⟩) := by
  have hne : email ≠ [] := emailRegexTest_ne_nil he
  simp only [insertWaitlistEntry, waitlistSchemaError]
  rw [if_neg (by omega), if_neg (by omega), if_neg (by simp [List.isEmpty_iff, hne]),
    if_neg (by simp [he]), if_neg (by simp [List.isEmpty_iff, hip]),
    if_neg (by simp [List.isEmpty_iff, hua])]
  have hany : db.waitlist.any (fun x => x.email == email) = false := by
    rw [List.any_eq_false]
    intro x hx
    simpa using hdup x hx
  simp [hany]

theorem insertWaitlistEntry_dupKey (db : DB) (now : Int) (name email ip ua : Str)
    (hn2 : 2 ≤ name.length) (hn50 : name.length ≤ 50)
    (he : emailRegexTest email = true) (hip : ip ≠ []) (hua : ua ≠ [])
    (hdup : ∃ x ∈ db.waitlist, x.email = email) :
    insertWaitlistEntry db now name email ip ua = .error duplicateKeyErr := by
  have hne : email ≠ [] := emailRegexTest_ne_nil he
  simp only [insertWaitlistEntry, waitlistSchemaError]
  rw [if_neg (by omega), if_neg (by omega), if_neg (by simp [List.isEmpty_iff, hne]),
    if_neg (by simp [he]), if_neg (by simp [List.isEmpty_iff, hip]),
    if_neg (by simp [List.isEmpty_iff, hua])]
  have hany : db.waitlist.any (fun x => x.email == email) = true := by
    rw [List.any_eq_true]
    obtain ⟨x, hx, hxe⟩ := hdup
    exact ⟨x, hx, by simp [hxe]⟩
  simp [hany]

theorem addToWaitlistRace_success (cfg : Config) (dbCheck dbInsert : DB) (now : Int)
    (req : WaitlistRequest)
    (hn2 : 2 ≤ (jsTrim req.name).length) (hn50 : (jsTrim req.name).length ≤ 50)
    (he : emailRegexTest req.email = true)
    (hcap : (countWaitlist dbCheck : Int) < cfg.maxWaitlistEntries)
    (hdup : findByEmail dbCheck req.email = none)
    (hip : (countRecentByIP dbCheck now (req.ipAddress.getD unknownStr) : Int) <
      cfg.maxSignupsPerIp24h)
    (hipne : req.ipAddress.getD unknownStr ≠ [])
    (huane : req.userAgent.getD unknownStr ≠ [])
    (hdup' : ∀ x ∈ dbInsert.waitlist, x.email ≠ normalizeEmail req.email) :
    addToWaitlistRace cfg dbCheck dbInsert now req =
      ({ dbInsert with waitlist := dbInsert.waitlist ++ [mkWaitlistEntry now req] },
       .ok (mkWaitlistEntry now req, countWaitlist dbCheck + 1)) := by
  rw [addToWaitlistRace_insert cfg dbCheck dbInsert now req (by omega) he (by omega) hdup
    (by omega)]
  rw [insertWaitlistEntry_ok dbInsert now _ _ _ _ hn2 hn50 (emailRegexTest_normalize he)
    hipne huane hdup']
  rfl

/-- Unfolding characterization of the contact pipeline: the five ordered
checks, then schema validation, then the append. -/
theorem addContactSubmission_eq (cfg : Config) (db : DB) (now : Int) (req : ContactRequest) :
    addContactSubmission cfg db now req =
      if (jsTrim req.name).length < 2 then (db, .error (.business .INVALID_NAME))
      else if emailRegexTest req.email = false then (db, .error (.business .INVALID_EMAIL))
      else if (jsTrim req.subject).length < 3 then (db, .error (.business .INVALID_SUBJECT))
      else if (jsTrim req.message).length < 10 then (db, .error (.business .INVALID_MESSAGE))
      else if (countContactsByIP db now (req.ipAddress.getD unknownStr) : Int) ≥
          cfg.maxContactsPerIp24h then (db, .error (.business .IP_RATE_LIMIT))
      else
        match contactSchemaError (mkContactEntry now req) with
        | some e => (db, .error (.store e))
        | none =>
          ({ db with contacts := db.contacts ++ [mkContactEntry now req] },
           .ok (mkContactEntry now req)) := by
  simp only [addContactSubmission, insertContactEntry, mkContactEntry]
  split_ifs <;> try rfl
  cases contactSchemaError
    { name := jsTrim req.name, email := normalizeEmail req.email,
      subject := jsTrim req.subject, message := jsTrim req.message,
      ipAddress := req.ipAddress.getD unknownStr, userAgent := req.userAgent.getD unknownStr,
      status := "new", createdAt := now } <;> rfl

/-- The contact schema accepts the document the pipeline builds whenever the
business checks passed and the remaining length caps hold. -/
theorem contactSchemaError_none (now : Int) (req : ContactRequest)
    (hn2 : 2 ≤ (jsTrim req.name).length) (hn50 : (jsTrim req.name).length ≤ 50)
    (he : emailRegexTest req.email = true)
    (hs3 : 3 ≤ (jsTrim req.subject).length) (hs100 : (jsTrim req.subject).length ≤ 100)
    (hm10 : 10 ≤ (jsTrim req.message).length) (hm1000 : (jsTrim req.message).length ≤ 1000)
    (hipne : req.ipAddress.getD unknownStr ≠ [])
    (huane : req.userAgent.getD unknownStr ≠ []) :
    contactSchemaError (mkContactEntry now req) = none := by
  have hne : normalizeEmail req.email ≠ [] :=
    emailRegexTest_ne_nil (emailRegexTest_normalize he)
  have hsne : jsTrim req.subject ≠ [] := by
    intro h
    rw [h] at hs3
    exact absurd hs3 (by decide)
  simp only [contactSchemaError, mkContactEntry]
  rw [if_neg (by omega), if_neg (by omega), if_neg (by simp [List.isEmpty_iff, hne]),
    if_neg (by simp [emailRegexTest_normalize he]), if_neg (by simp [List.isEmpty_iff, hsne]),
    if_neg (by omega), if_neg (by omega), if_neg (by omega),
    if_neg (by simp [List.isEmpty_iff, hipne]), if_neg (by simp [List.isEmpty_iff, huane])]

/-- Success of the contact pipeline under the business checks and the schema
length caps. -/
theorem addContactSubmission_success (cfg : Config) (db : DB) (now : Int)
    (req : ContactRequest)
    (hn2 : 2 ≤ (jsTrim req.name).length) (hn50 : (jsTrim req.name).length ≤ 50)
    (he : emailRegexTest req.email = true)
    (hs3 : 3 ≤ (jsTrim req.subject).length) (hs100 : (jsTrim req.subject).length ≤ 100)
    (hm10 : 10 ≤ (jsTrim req.message).length) (hm1000 : (jsTrim req.message).length ≤ 1000)
    (hip : (countContactsByIP db now (req.ipAddress.getD unknownStr) : Int) <
      cfg.maxContactsPerIp24h)
    (hipne : req.ipAddress.getD unknownStr ≠ [])
    (huane : req.userAgent.getD unknownStr ≠ []) :
    addContactSubmission cfg db now req =
      ({ db with contacts := db.contacts ++ [mkContactEntry now req] },
       .ok (mkContactEntry now req)) := by
  rw [addContactSubmission_eq]
  rw [if_neg (by omega), if_neg (by simp [he]), if_neg (by omega), if_neg (by omega),
    if_neg (by omega),
    contactSchemaError_none now req hn2 hn50 he hs3 hs100 hm10 hm1000 hipne huane]

/-- Inversion of a successful waitlist insert: the stored entry is the given
document, the store gained exactly that one document, and the document passed
schema validation. -/
theorem insertWaitlistEntry_ok_inv {db db' : DB} {now : Int} {name email ip ua : Str}
    {entry : WaitlistRecord}
    (h : insertWaitlistEntry db now name email ip ua = .ok (db', entry)) :
    entry = ⟨name, email, ip, ua, now⟩ ∧
    db' = { db with waitlist := db.waitlist ++ [entry] } ∧
    waitlistSchemaError entry = none := by
  simp only [insertWaitlistEntry] at h
  cases hse : waitlistSchemaError ⟨name, email, ip, ua, now⟩ with
  | some e => rw [hse] at h; exact absurd h (by simp)
  | none =>
    rw [hse] at h
    by_cases hany : db.waitlist.any (fun x => x.email == email) = true
    · rw [if_pos hany] at h
      exact absurd h (by simp)
    · rw [if_neg hany] at h
      simp only [Except.ok.injEq, Prod.mk.injEq] at h
      obtain ⟨hdb, hent⟩ := h
      subst hent
      exact ⟨rfl, hdb.symm, hse⟩

/-- A name whose trimmed length exceeds the schema cap of 50 makes the insert
fail with the mongoose validation error (not a duplicate-key error). -/
theorem insertWaitlistEntry_name_too_long (db : DB) (now : Int) (name email ip ua : Str)
    (hn2 : 2 ≤ name.length) (h50 : 50 < name.length) :
    insertWaitlistEntry db now name email ip ua =
      .error (validationErr "Name must be less than 50 characters") := by
  simp only [insertWaitlistEntry, waitlistSchemaError]
  rw [if_neg (by omega), if_pos h50]

/-! ## Concrete states and requests used by witnesses and counterexamples -/

/-- A fixed call instant (milliseconds since the epoch). -/
def t0 : Int := 1700000000000

/-- The empty store. -/
def emptyDB : DB := { waitlist := [], contacts := [] }

def ipA : Str := ['1', '.', '2', '.', '3', '.', '4']

def ipB : Str := ['5', '.', '6', '.', '7', '.', '8']

def uaEx : Str := ['U', 'A']

def janeName : Str := ['J', 'a', 'n', 'e', ' ', 'D', 'o', 'e']

def janeEmail : Str := ['j', 'a', 'n', 'e', '@', 'x', '.', 'c', 'o', 'm']

def bobEmail : Str := ['b', 'o', 'b', '@', 'x', '.', 'c', 'o', 'm']

def aliceEmail : Str := ['a', 'l', 'i', 'c', 'e', '@', 'x', '.', 'c', 'o', 'm']

def carolEmail : Str := ['c', 'a', 'r', 'o', 'l', '@', 'x', '.', 'c', 'o', 'm']

def badEmail : Str := ['n', 'o', 't', 'a', 'n', 'e', 'm', 'a', 'i', 'l']

/-- A waitlist document from the given email/IP, joined at `t0`. -/
def entryOf (email ip : Str) : WaitlistRecord :=
  { name := janeName, email := email, ipAddress := ip, userAgent := uaEx, joinedAt := t0 }

/-- A store holding one waitlist entry (Jane's). -/
def dbJane : DB := { waitlist := [entryOf janeEmail ipA], contacts := [] }

/-- A store holding three same-day waitlist entries from IP `ipA`. -/
def dbThreeFromA : DB :=
  { waitlist := [entryOf aliceEmail ipA, entryOf bobEmail ipA, entryOf carolEmail ipA],
    contacts := [] }

/-! ## The claims -/

/-- C1: For every input to waitlist admit, the checks run in the fixed order
name-presence/length, email shape, capacity, duplicate email, per-IP rate;
the first failing check short-circuits (the result is fixed by that check
alone, whatever the rest of the input and store contain) and each check maps
to its own distinct failure kind. -/
theorem claim1_waitlist_check_order (cfg : Config) (db : DB) (now : Int)
    (req : WaitlistRequest) :
    ((jsTrim req.name).length < 2 →
      addToWaitlist cfg db now req = (db, .error (.business .INVALID_NAME)))
  ∧ (2 ≤ (jsTrim req.name).length → emailRegexTest req.email = false →
      addToWaitlist cfg db now req = (db, .error (.business .INVALID_EMAIL)))
  ∧ (2 ≤ (jsTrim req.name).length → emailRegexTest req.email = true →
      (countWaitlist db : Int) ≥ cfg.maxWaitlistEntries →
      addToWaitlist cfg db now req = (db, .error (.business .WAITLIST_FULL)))
  ∧ (2 ≤ (jsTrim req.name).length → emailRegexTest req.email = true →
      (countWaitlist db : Int) < cfg.maxWaitlistEntries →
      (findByEmail db req.email).isSome = true →
      addToWaitlist cfg db now req = (db, .error (.business .DUPLICATE_EMAIL)))
  ∧ (2 ≤ (jsTrim req.name).length → emailRegexTest req.email = true →
      (countWaitlist db : Int) < cfg.maxWaitlistEntries →
      findByEmail db req.email = none →
      (countRecentByIP db now (req.ipAddress.getD unknownStr) : Int) ≥ cfg.maxSignupsPerIp24h →
      addToWaitlist cfg db now req = (db, .error (.business .IP_RATE_LIMIT)))
  ∧ ([BusinessCode.INVALID_NAME, BusinessCode.INVALID_EMAIL, BusinessCode.WAITLIST_FULL,
      BusinessCode.DUPLICATE_EMAIL, BusinessCode.IP_RATE_LIMIT] : List BusinessCode).Nodup := by
  refine ⟨?_, ?_, ?_, ?_, ?_, by decide⟩
  · intro h
    exact addToWaitlistRace_invalid_name cfg db db now req h
  · intro hn he
    exact addToWaitlistRace_invalid_email cfg db db now req (by omega) he
  · intro hn he hcap
    exact addToWaitlistRace_full cfg db db now req (by omega) he hcap
  · intro hn he hcap hdup
    exact addToWaitlistRace_dup_precheck cfg db db now req (by omega) he (by omega) hdup
  · intro hn he hcap hdup hip
    exact addToWaitlistRace_ip_limited cfg db db now req (by omega) he (by omega) hdup hip

theorem claim1_witness :
    addToWaitlist defaultConfig emptyDB t0 { name := ['J'], email := janeEmail } =
      (emptyDB, .error (.business .INVALID_NAME)) :=
  (claim1_waitlist_check_order defaultConfig emptyDB t0
    { name := ['J'], email := janeEmail }).1 (by decide)

/-- C2: For every valid request whose email is not already present, with the
waitlist below capacity and the IP below its limit, admit succeeds, returns
`position = countWaitlist db + 1` (the count observed before insertion — the
final conjunct shows the position stays `countWaitlist dbCheck + 1` whatever
store state the insert itself runs against), and the stored entry carries the
lowercased, trimmed email and is retrievable by the submitted email. -/
theorem claim2_waitlist_admit_success (cfg : Config) (db : DB) (now : Int)
    (req : WaitlistRequest)
    (hn2 : 2 ≤ (jsTrim req.name).length) (hn50 : (jsTrim req.name).length ≤ 50)
    (he : emailRegexTest req.email = true)
    (hcap : (countWaitlist db : Int) < cfg.maxWaitlistEntries)
    (hdup : findByEmail db req.email = none)
    (hip : (countRecentByIP db now (req.ipAddress.getD unknownStr) : Int) <
      cfg.maxSignupsPerIp24h)
    (hipne : req.ipAddress.getD unknownStr ≠ [])
    (huane : req.userAgent.getD unknownStr ≠ []) :
    addToWaitlist cfg db now req =
      ({ db with waitlist := db.waitlist ++ [mkWaitlistEntry now req] },
       .ok (mkWaitlistEntry now req, countWaitlist db + 1))
  ∧ (mkWaitlistEntry now req).email = normalizeEmail req.email
  ∧ findByEmail { db with waitlist := db.waitlist ++ [mkWaitlistEntry now req] } req.email =
      some (mkWaitlistEntry now req)
  ∧ (∀ dbInsert : DB, (∀ x ∈ dbInsert.waitlist, x.email ≠ normalizeEmail req.email) →
      (addToWaitlistRace cfg db dbInsert now req).2 =
        .ok (mkWaitlistEntry now req, countWaitlist db + 1)) := by
  have hdup' : ∀ x ∈ db.waitlist, x.email ≠ normalizeEmail req.email :=
    (findByEmail_none_iff db req.email).mp hdup
  refine ⟨?_, rfl, ?_, ?_⟩
  · exact addToWaitlistRace_success cfg db db now req hn2 hn50 he hcap hdup hip
      hipne huane hdup'
  · rw [findByEmail, List.find?_append]
    rw [findByEmail] at hdup
    rw [hdup]
    simp [mkWaitlistEntry]
  · intro dbInsert hdupI
    rw [addToWaitlistRace_success cfg db dbInsert now req hn2 hn50 he hcap hdup hip
      hipne huane hdupI]

theorem claim2_witness :
    addToWaitlist defaultConfig emptyDB t0
        { name := janeName, email := janeEmail, ipAddress := some ipA, userAgent := some uaEx } =
      ({ emptyDB with waitlist := emptyDB.waitlist ++
          [mkWaitlistEntry t0
            { name := janeName, email := janeEmail, ipAddress := some ipA,
              userAgent := some uaEx }] },
       .ok (mkWaitlistEntry t0
          { name := janeName, email := janeEmail, ipAddress := some ipA,
            userAgent := some uaEx }, countWaitlist emptyDB + 1)) :=
  (claim2_waitlist_admit_success defaultConfig emptyDB t0
    { name := janeName, email := janeEmail, ipAddress := some ipA, userAgent := some uaEx }
    (by decide) (by decide) (by decide) (by decide) (by decide) (by decide)
    (by decide) (by decide)).1

/-- C3: waitlist admit performs exactly one durable insert when it succeeds
(the new store is the old one with exactly the returned entry appended, the
contact collection untouched) and leaves the store unchanged on every failure
path. -/
theorem claim3_waitlist_admit_store_effects (cfg : Config) (db : DB) (now : Int)
    (req : WaitlistRequest) :
    match addToWaitlist cfg db now req with
    | (db', .ok (entry, _)) =>
      db'.waitlist = db.waitlist ++ [entry] ∧ db'.contacts = db.contacts
    | (db', .error _) => db' = db := by
  rcases h : addToWaitlist cfg db now req with ⟨db', out⟩
  simp only [addToWaitlist, addToWaitlistRace] at h
  split_ifs at h with h1 h2 h3 h4 h5
  · simp only [Prod.mk.injEq] at h
    rw [← h.1, ← h.2]
  · simp only [Prod.mk.injEq] at h
    rw [← h.1, ← h.2]
  · simp only [Prod.mk.injEq] at h
    rw [← h.1, ← h.2]
  · simp only [Prod.mk.injEq] at h
    rw [← h.1, ← h.2]
  · simp only [Prod.mk.injEq] at h
    rw [← h.1, ← h.2]
  · cases hins : insertWaitlistEntry db now (jsTrim req.name) (normalizeEmail req.email)
        (req.ipAddress.getD unknownStr) (req.userAgent.getD unknownStr) with
    | ok p =>
      obtain ⟨db2, entry⟩ := p
      rw [hins] at h
      simp only [Prod.mk.injEq] at h
      obtain ⟨hinv1, hinv2, -⟩ := insertWaitlistEntry_ok_inv hins
      rw [← h.1, ← h.2, hinv2]
      exact ⟨rfl, rfl⟩
    | error e =>
      rw [hins] at h
      simp only [Prod.mk.injEq] at h
      rw [← h.1, ← h.2]

/-- C4: when the pre-insert checks pass against the checked state but the
insert races a concurrent writer who claimed the same normalized email, the
storage duplicate-key fault is reinterpreted as the typed `DUPLICATE_EMAIL`
business failure; every storage error whose code is not 11000 is rethrown
unchanged. -/
theorem claim4_insert_dup_translation (cfg : Config) (dbCheck dbInsert : DB) (now : Int)
    (req : WaitlistRequest)
    (hn2 : 2 ≤ (jsTrim req.name).length) (hn50 : (jsTrim req.name).length ≤ 50)
    (he : emailRegexTest req.email = true)
    (hcap : (countWaitlist dbCheck : Int) < cfg.maxWaitlistEntries)
    (hdup : findByEmail dbCheck req.email = none)
    (hip : (countRecentByIP dbCheck now (req.ipAddress.getD unknownStr) : Int) <
      cfg.maxSignupsPerIp24h)
    (hipne : req.ipAddress.getD unknownStr ≠ [])
    (huane : req.userAgent.getD unknownStr ≠ [])
    (hrace : ∃ x ∈ dbInsert.waitlist, x.email = normalizeEmail req.email) :
    addToWaitlistRace cfg dbCheck dbInsert now req =
      (dbInsert, .error (.business .DUPLICATE_EMAIL))
  ∧ (∀ e : StoreErr, e.code ≠ some 11000 → translateInsertError e = .store e) := by
  constructor
  · rw [addToWaitlistRace_insert cfg dbCheck dbInsert now req (by omega) he (by omega)
      hdup (by omega)]
    rw [insertWaitlistEntry_dupKey dbInsert now _ _ _ _ hn2 hn50
      (emailRegexTest_normalize he) hipne huane hrace]
    rfl
  · intro e hne
    rw [translateInsertError, if_neg]
    rintro (h | ⟨-, h⟩) <;> exact hne h

theorem claim4_witness :
    addToWaitlistRace defaultConfig emptyDB dbJane t0
        { name := janeName, email := janeEmail, ipAddress := some ipB, userAgent := some uaEx } =
      (dbJane, .error (.business .DUPLICATE_EMAIL)) :=
  (claim4_insert_dup_translation defaultConfig emptyDB dbJane t0
    { name := janeName, email := janeEmail, ipAddress := some ipB, userAgent := some uaEx }
    (by decide) (by decide) (by decide) (by decide) (by decide) (by decide) (by decide)
    (by decide) ⟨entryOf janeEmail ipA, by decide, by decide⟩).1

/-- C5 (counterexample): the business-layer `getWaitlistStats` — the stats
function wired to the running presentation layer — returns an object with no
`percentageFull` key at all, so a call on a store holding one entry refutes
the claim that every call returns `percentageFull = round(total/capacity ×
100)`. -/
theorem claim5_counterexample :
    (getWaitlistStats defaultConfig dbJane t0).lookup "totalSignups" = some (.num 1)
  ∧ (getWaitlistStats defaultConfig dbJane t0).lookup "percentageFull" = none :=
  ⟨rfl, rfl⟩

/-- C5 (amended): every call to the business-layer `getWaitlistStats` returns
`totalSignups` = full count, `recentSignups24h` = trailing-24h count,
`capacity` = configured maximum and `lastUpdated` = the call instant, and no
`percentageFull` field; the layered app's service variant additionally
returns `percentageFull = round(total/capacity × 100)`. -/
theorem claim5_stats_fields (cfg : Config) (db : DB) (now : Int)
    (docs : List SvcWaitlistDoc) (maxEntries : Int) :
    (getWaitlistStats cfg db now).lookup "totalSignups" = some (.num (countWaitlist db))
  ∧ (getWaitlistStats cfg db now).lookup "recentSignups24h" =
      some (.num ((db.waitlist.filter (fun r => decide (now - dayMs ≤ r.joinedAt))).length))
  ∧ (getWaitlistStats cfg db now).lookup "capacity" = some (.num cfg.maxWaitlistEntries)
  ∧ (getWaitlistStats cfg db now).lookup "lastUpdated" = some (.isoTime now)
  ∧ (getWaitlistStats cfg db now).lookup "percentageFull" = none
  ∧ (svcGetWaitlistStats maxEntries docs now).lookup "percentageFull" =
      some (.num (round ((docs.length : ℚ) / (maxEntries : ℚ) * 100)))
  ∧ (svcGetWaitlistStats maxEntries docs now).lookup "lastUpdated" = some (.isoTime now) :=
  ⟨rfl, rfl, rfl, rfl, rfl, rfl, rfl⟩

/-- C6 (counterexample): with three same-day signups already stored from
`ipA` (at the default limit 3), a further request from `ipA` carrying a
shape-invalid email fails with `INVALID_EMAIL`, not `IP_RATE_LIMIT` — the
email-shape check short-circuits first, refuting "fails with IpRateLimited
regardless of the email's validity or novelty". -/
theorem claim6_counterexample :
    (countRecentByIP dbThreeFromA t0 ipA : Int) ≥ defaultConfig.maxSignupsPerIp24h
  ∧ addToWaitlist defaultConfig dbThreeFromA t0
      { name := janeName, email := badEmail, ipAddress := some ipA, userAgent := some uaEx } =
      (dbThreeFromA, .error (.business .INVALID_EMAIL))
  ∧ Failure.business .INVALID_EMAIL ≠ Failure.business .IP_RATE_LIMIT :=
  ⟨by decide, rfl, by decide⟩

/-- C6 (amended): with the per-IP limit at its default of 3, for a request
that passes the earlier checks (name, email shape, capacity, novelty), admit
fails with `IP_RATE_LIMIT` exactly when the requesting IP already has ≥ 3
waitlist entries in the trailing 24 hours, and an otherwise-identical request
(same name and email) from a different IP below the limit succeeds. -/
theorem claim6_ip_limit (cfg : Config) (db : DB) (now : Int) (req : WaitlistRequest)
    (h3 : cfg.maxSignupsPerIp24h = 3)
    (hn2 : 2 ≤ (jsTrim req.name).length) (hn50 : (jsTrim req.name).length ≤ 50)
    (he : emailRegexTest req.email = true)
    (hcap : (countWaitlist db : Int) < cfg.maxWaitlistEntries)
    (hdup : findByEmail db req.email = none) :
    ((countRecentByIP db now (req.ipAddress.getD unknownStr) : Int) ≥ 3 →
      addToWaitlist cfg db now req = (db, .error (.business .IP_RATE_LIMIT)))
  ∧ (∀ req' : WaitlistRequest, req'.name = req.name → req'.email = req.email →
      (countRecentByIP db now (req'.ipAddress.getD unknownStr) : Int) < 3 →
      req'.ipAddress.getD unknownStr ≠ [] → req'.userAgent.getD unknownStr ≠ [] →
      addToWaitlist cfg db now req' =
        ({ db with waitlist := db.waitlist ++ [mkWaitlistEntry now req'] },
         .ok (mkWaitlistEntry now req', countWaitlist db + 1))) := by
  constructor
  · intro hip
    exact addToWaitlistRace_ip_limited cfg db db now req (by omega) he (by omega) hdup
      (by rw [h3]; exact hip)
  · intro req' hname hemail hip' hipne' huane'
    exact addToWaitlistRace_success cfg db db now req' (by rw [hname]; exact hn2)
      (by rw [hname]; exact hn50) (by rw [hemail]; exact he) hcap
      (by rw [hemail]; exact hdup) (by rw [h3]; exact hip') hipne' huane'
      (by rw [hemail]; exact (findByEmail_none_iff db req.email).mp hdup)

theorem claim6_witness :
    addToWaitlist defaultConfig dbThreeFromA t0
        { name := janeName, email := janeEmail, ipAddress := some ipA, userAgent := some uaEx } =
      (dbThreeFromA, .error (.business .IP_RATE_LIMIT)) :=
  (claim6_ip_limit defaultConfig dbThreeFromA t0
    { name := janeName, email := janeEmail, ipAddress := some ipA, userAgent := some uaEx }
    (by decide) (by decide) (by decide) (by decide) (by decide) (by decide)).1 (by decide)

/-- Capacity 1, for the capacity-boundary scenario of C8. -/
def cfgCap1 : Config := { maxWaitlistEntries := 1 }

/-- C8 (counterexample): with capacity 1 and one existing entry (so the count
is at or above capacity) but a name that fails validation, admit fails with
`INVALID_NAME`, not `WAITLIST_FULL` — the name check short-circuits first,
refuting the unconditional "whenever the count ≥ capacity, admit fails with
WaitlistFull". -/
theorem claim8_counterexample :
    (countWaitlist dbJane : Int) ≥ cfgCap1.maxWaitlistEntries
  ∧ addToWaitlist cfgCap1 dbJane t0 { name := [], email := bobEmail } =
      (dbJane, .error (.business .INVALID_NAME))
  ∧ Failure.business .INVALID_NAME ≠ Failure.business .WAITLIST_FULL :=
  ⟨by decide, rfl, by decide⟩

/-- C8 (amended): whenever name and email pass their validation checks and
the current total count is at least the configured capacity, admit fails with
`WAITLIST_FULL`; the witness instantiates the capacity-1, one-entry,
fresh-valid-email boundary case. -/
theorem claim8_capacity (cfg : Config) (db : DB) (now : Int) (req : WaitlistRequest)
    (hn2 : 2 ≤ (jsTrim req.name).length)
    (he : emailRegexTest req.email = true)
    (hfull : (countWaitlist db : Int) ≥ cfg.maxWaitlistEntries) :
    addToWaitlist cfg db now req = (db, .error (.business .WAITLIST_FULL)) :=
  addToWaitlistRace_full cfg db db now req (by omega) he hfull

theorem claim8_witness :
    addToWaitlist cfgCap1 dbJane t0 { name := janeName, email := bobEmail } =
      (dbJane, .error (.business .WAITLIST_FULL)) :=
  claim8_capacity cfgCap1 dbJane t0 { name := janeName, email := bobEmail }
    (by decide) (by decide) (by decide)

/-- C7: the contact pipeline checks, in order, name (≥ 2 trimmed), email
shape, subject (≥ 3 trimmed), message (≥ 10 trimmed), then the per-IP
24-hour contact count against the configured limit; its outcome never
depends on the waitlist collection (so no duplicate-email or capacity
constraint applies), and a valid submission whose email is already on the
waitlist succeeds.  The success value is the bare entry — the contact result
type carries no position. -/
theorem claim7_contact_pipeline (cfg : Config) (db : DB) (now : Int) (req : ContactRequest) :
    ((jsTrim req.name).length < 2 →
      addContactSubmission cfg db now req = (db, .error (.business .INVALID_NAME)))
  ∧ (2 ≤ (jsTrim req.name).length → emailRegexTest req.email = false →
      addContactSubmission cfg db now req = (db, .error (.business .INVALID_EMAIL)))
  ∧ (2 ≤ (jsTrim req.name).length → emailRegexTest req.email = true →
      (jsTrim req.subject).length < 3 →
      addContactSubmission cfg db now req = (db, .error (.business .INVALID_SUBJECT)))
  ∧ (2 ≤ (jsTrim req.name).length → emailRegexTest req.email = true →
      3 ≤ (jsTrim req.subject).length → (jsTrim req.message).length < 10 →
      addContactSubmission cfg db now req = (db, .error (.business .INVALID_MESSAGE)))
  ∧ (2 ≤ (jsTrim req.name).length → emailRegexTest req.email = true →
      3 ≤ (jsTrim req.subject).length → 10 ≤ (jsTrim req.message).length →
      (countContactsByIP db now (req.ipAddress.getD unknownStr) : Int) ≥
        cfg.maxContactsPerIp24h →
      addContactSubmission cfg db now req = (db, .error (.business .IP_RATE_LIMIT)))
  ∧ (∀ w₁ w₂ : List WaitlistRecord, ∀ cs : List ContactRecord,
      (addContactSubmission cfg ⟨w₁, cs⟩ now req).2 =
        (addContactSubmission cfg ⟨w₂, cs⟩ now req).2 ∧
      (addContactSubmission cfg ⟨w₁, cs⟩ now req).1.contacts =
        (addContactSubmission cfg ⟨w₂, cs⟩ now req).1.contacts ∧
      (addContactSubmission cfg ⟨w₁, cs⟩ now req).1.waitlist = w₁)
  ∧ ((findByEmail db req.email).isSome = true →
      2 ≤ (jsTrim req.name).length → (jsTrim req.name).length ≤ 50 →
      emailRegexTest req.email = true →
      3 ≤ (jsTrim req.subject).length → (jsTrim req.subject).length ≤ 100 →
      10 ≤ (jsTrim req.message).length → (jsTrim req.message).length ≤ 1000 →
      (countContactsByIP db now (req.ipAddress.getD unknownStr) : Int) <
        cfg.maxContactsPerIp24h →
      req.ipAddress.getD unknownStr ≠ [] → req.userAgent.getD unknownStr ≠ [] →
      addContactSubmission cfg db now req =
        ({ db with contacts := db.contacts ++ [mkContactEntry now req] },
         .ok (mkContactEntry now req))) := by
  refine ⟨?_, ?_, ?_, ?_, ?_, ?_, ?_⟩
  · intro h
    rw [addContactSubmission_eq, if_pos h]
  · intro hn he
    rw [addContactSubmission_eq, if_neg (by omega), if_pos he]
  · intro hn he hs
    rw [addContactSubmission_eq, if_neg (by omega), if_neg (by simp [he]), if_pos hs]
  · intro hn he hs hm
    rw [addContactSubmission_eq, if_neg (by omega), if_neg (by simp [he]),
      if_neg (by omega), if_pos hm]
  · intro hn he hs hm hip
    rw [addContactSubmission_eq, if_neg (by omega), if_neg (by simp [he]),
      if_neg (by omega), if_neg (by omega), if_pos hip]
  · intro w₁ w₂ cs
    rw [addContactSubmission_eq, addContactSubmission_eq]
    have hcnt : countContactsByIP ⟨w₁, cs⟩ now (req.ipAddress.getD unknownStr) =
        countContactsByIP ⟨w₂, cs⟩ now (req.ipAddress.getD unknownStr) := rfl
    rw [hcnt]
    split_ifs <;> try exact ⟨rfl, rfl, rfl⟩
    cases contactSchemaError (mkContactEntry now req) <;> exact ⟨rfl, rfl, rfl⟩
  · intro _hwl hn2 hn50 he hs3 hs100 hm10 hm1000 hip hipne huane
    exact addContactSubmission_success cfg db now req hn2 hn50 he hs3 hs100 hm10 hm1000
      hip hipne huane

/-- A contact request from Jane's (already waitlisted) email. -/
def contactReqJane : ContactRequest :=
  { name := janeName, email := janeEmail,
    subject := ['H', 'e', 'l', 'l', 'o'],
    message := ['H', 'e', 'l', 'l', 'o', ' ', 't', 'h', 'e', 'r', 'e', '!'],
    ipAddress := some ipA, userAgent := some uaEx }

theorem claim7_witness :
    addContactSubmission defaultConfig dbJane t0 contactReqJane =
      ({ dbJane with contacts := dbJane.contacts ++ [mkContactEntry t0 contactReqJane] },
       .ok (mkContactEntry t0 contactReqJane)) :=
  (claim7_contact_pipeline defaultConfig dbJane t0 contactReqJane).2.2.2.2.2.2
    (by decide) (by decide) (by decide) (by decide) (by decide) (by decide) (by decide)
    (by decide) (by decide) (by decide) (by decide)

/-- The character class of the layered app's Waitlist-model name validator,
`/^[a-zA-Z\s\-'\.]+$/`: letters, whitespace, hyphen, apostrophe (codepoint
39), period.  The spec's §3 `name` character restriction is this class. -/
def nameCharAllowed (c : Char) : Bool :=
  (decide ('a' ≤ c) && decide (c ≤ 'z')) || (decide ('A' ≤ c) && decide (c ≤ 'Z')) ||
    c.isWhitespace || c == '-' || c == Char.ofNat 39 || c == '.'

/-- A name containing digits, which the claimed character restriction
forbids. -/
def digitsName : Str := ['A', 'g', 'e', 'n', 't', ' ', '0', '0', '7']

def reqDigits : WaitlistRequest :=
  { name := digitsName, email := bobEmail, ipAddress := some ipA, userAgent := some uaEx }

/-- C9 (counterexample): the core admits a name containing digits — the
admission pipeline and the core's `WaitlistSchema` enforce only the length
bounds, no character class (the `/^[a-zA-Z\s\-'\.]+$/` restriction exists
only in the layered app's separate model). -/
theorem claim9_counterexample :
    (addToWaitlist defaultConfig emptyDB t0 reqDigits).2 =
      .ok (mkWaitlistEntry t0 reqDigits, 1)
  ∧ (mkWaitlistEntry t0 reqDigits).name.all nameCharAllowed = false :=
  ⟨rfl, by decide⟩

/-- A document accepted by the waitlist schema has its name length within the
schema bounds. -/
theorem waitlistSchemaError_none_bounds {r : WaitlistRecord}
    (h : waitlistSchemaError r = none) : 2 ≤ r.name.length ∧ r.name.length ≤ 50 := by
  simp only [waitlistSchemaError] at h
  split_ifs at h
  all_goals first
    | (constructor <;> omega)
    | exact absurd h (by simp)

/-- C9 (amended): every entry the core admits has a stored name equal to the
trimmed input name with length in [2, 50]; a name trimming below 2 is
rejected with `INVALID_NAME`, and one trimming above 50 is rejected at insert
time by the schema's maxlength validator (surfacing as the raw mongoose
validation error, with the store unchanged).  No character-class restriction
is enforced. -/
theorem claim9_name_invariant (cfg : Config) (db : DB) (now : Int) (req : WaitlistRequest) :
    (∀ (db' : DB) (entry : WaitlistRecord) (pos : Nat),
      addToWaitlist cfg db now req = (db', .ok (entry, pos)) →
      2 ≤ entry.name.length ∧ entry.name.length ≤ 50 ∧ entry.name = jsTrim req.name)
  ∧ ((jsTrim req.name).length < 2 →
      addToWaitlist cfg db now req = (db, .error (.business .INVALID_NAME)))
  ∧ (50 < (jsTrim req.name).length → emailRegexTest req.email = true →
      (countWaitlist db : Int) < cfg.maxWaitlistEntries →
      findByEmail db req.email = none →
      (countRecentByIP db now (req.ipAddress.getD unknownStr) : Int) <
        cfg.maxSignupsPerIp24h →
      addToWaitlist cfg db now req =
        (db, .error (.store (validationErr "Name must be less than 50 characters")))) := by
  refine ⟨?_, ?_, ?_⟩
  · intro db' entry pos h
    simp only [addToWaitlist, addToWaitlistRace] at h
    split_ifs at h with h1 h2 h3 h4 h5
    · exact absurd h (by simp)
    · exact absurd h (by simp)
    · exact absurd h (by simp)
    · exact absurd h (by simp)
    · exact absurd h (by simp)
    · cases hins : insertWaitlistEntry db now (jsTrim req.name) (normalizeEmail req.email)
          (req.ipAddress.getD unknownStr) (req.userAgent.getD unknownStr) with
      | ok p =>
        obtain ⟨db₂, e₂⟩ := p
        rw [hins] at h
        simp only [Prod.mk.injEq, Except.ok.injEq] at h
        obtain ⟨hinv1, -, hinv3⟩ := insertWaitlistEntry_ok_inv hins
        obtain ⟨-, hent, -⟩ := h
        subst hent
        have hb := waitlistSchemaError_none_bounds hinv3
        refine ⟨hb.1, hb.2, ?_⟩
        rw [hinv1]
      | error e =>
        rw [hins] at h
        exact absurd h (by simp)
  · intro h
    exact addToWaitlistRace_invalid_name cfg db db now req h
  · intro h50 he hcap hdup hip
    rw [addToWaitlist, addToWaitlistRace_insert cfg db db now req (by omega) he (by omega)
      hdup (by omega)]
    rw [insertWaitlistEntry_name_too_long db now _ _ _ _ (by omega) h50]
    rfl

/-- A 60-character name, beyond the schema's cap of 50. -/
def longName : Str := List.replicate 60 'a'

theorem claim9_witness :
    addToWaitlist defaultConfig emptyDB t0 { name := longName, email := bobEmail } =
      (emptyDB, .error (.store (validationErr "Name must be less than 50 characters"))) :=
  (claim9_name_invariant defaultConfig emptyDB t0
    { name := longName, email := bobEmail }).2.2
    (by decide) (by decide) (by decide) (by decide) (by decide)

/-- Jane's request with `ipAddress` absent but `userAgent` supplied. -/
def reqNoIp : WaitlistRequest :=
  { name := janeName, email := janeEmail, userAgent := some uaEx }

/-- Jane's request with `userAgent` absent but `ipAddress` supplied. -/
def reqNoUa : WaitlistRequest :=
  { name := janeName, email := janeEmail, ipAddress := some ipA }

/-- Jane's request with both `ipAddress` and `userAgent` absent. -/
def reqNoIpUa : WaitlistRequest := { name := janeName, email := janeEmail }

/-- C10: a request in which `ipAddress` or `userAgent` (either one, or both)
is absent is processed exactly as the same request carrying the string
`'unknown'` in the absent field — the destructuring defaults substitute
`'unknown'` field by field, whatever the other field holds, so no check
rejects for a missing field.  The first two conjuncts state the
substitution for an absent `ipAddress` under an arbitrary `userAgent` field
and for an absent `userAgent` under an arbitrary `ipAddress` field (their
instances cover the two mixed cases and the both-absent case); the next two
state the same for the contact pipeline.  The closing conjuncts run all
three absence patterns through every check and the insert on the empty
store: each succeeds, storing `'unknown'` for exactly the absent fields. -/
theorem claim10_missing_ip_ua (cfg : Config) (db : DB) (now : Int) :
    (∀ (name email : Str) (ua : Option Str),
      addToWaitlist cfg db now
          { name := name, email := email, ipAddress := none, userAgent := ua } =
        addToWaitlist cfg db now
          { name := name, email := email, ipAddress := some unknownStr, userAgent := ua })
  ∧ (∀ (name email : Str) (ip : Option Str),
      addToWaitlist cfg db now
          { name := name, email := email, ipAddress := ip, userAgent := none } =
        addToWaitlist cfg db now
          { name := name, email := email, ipAddress := ip, userAgent := some unknownStr })
  ∧ (∀ (name email subject message : Str) (ua : Option Str),
      addContactSubmission cfg db now
          { name := name, email := email, subject := subject, message := message,
            ipAddress := none, userAgent := ua } =
        addContactSubmission cfg db now
          { name := name, email := email, subject := subject, message := message,
            ipAddress := some unknownStr, userAgent := ua })
  ∧ (∀ (name email subject message : Str) (ip : Option Str),
      addContactSubmission cfg db now
          { name := name, email := email, subject := subject, message := message,
            ipAddress := ip, userAgent := none } =
        addContactSubmission cfg db now
          { name := name, email := email, subject := subject, message := message,
            ipAddress := ip, userAgent := some unknownStr })
  ∧ addToWaitlist defaultConfig emptyDB t0 reqNoIp =
      ({ emptyDB with waitlist := [mkWaitlistEntry t0 reqNoIp] },
       .ok (mkWaitlistEntry t0 reqNoIp, 1))
  ∧ (mkWaitlistEntry t0 reqNoIp).ipAddress = unknownStr
  ∧ (mkWaitlistEntry t0 reqNoIp).userAgent = uaEx
  ∧ addToWaitlist defaultConfig emptyDB t0 reqNoUa =
      ({ emptyDB with waitlist := [mkWaitlistEntry t0 reqNoUa] },
       .ok (mkWaitlistEntry t0 reqNoUa, 1))
  ∧ (mkWaitlistEntry t0 reqNoUa).ipAddress = ipA
  ∧ (mkWaitlistEntry t0 reqNoUa).userAgent = unknownStr
  ∧ addToWaitlist defaultConfig emptyDB t0 reqNoIpUa =
      ({ emptyDB with waitlist := [mkWaitlistEntry t0 reqNoIpUa] },
       .ok (mkWaitlistEntry t0 reqNoIpUa, 1))
  ∧ (mkWaitlistEntry t0 reqNoIpUa).ipAddress = unknownStr
  ∧ (mkWaitlistEntry t0 reqNoIpUa).userAgent = unknownStr :=
  ⟨fun _ _ _ => rfl, fun _ _ _ => rfl, fun _ _ _ _ _ => rfl, fun _ _ _ _ _ => rfl,
   rfl, rfl, rfl, rfl, rfl, rfl, rfl, rfl, rfl⟩

end Spamklr

